import Mathlib

/-!
Verification of the AVL tree implementation in src/avl.py.

The tree is shallowly embedded as an inductive type. Each Python Node
carries a value, a multiplicity counter, a cached height and two child
links; the NullNode sentinel is the nil constructor, whose height is the
constant -1. The mutating Python methods become pure functions that
rebuild the affected subtree; the parent back-references of the source
only serve to re-attach rotated subtrees, which the functional rebuild
performs at the call site. Errors (the ValueError raised by delete when
the value is absent) are modelled with Option.
-/

namespace AvlPy

/-- A tree: either the NullNode sentinel or a Node with value, count,
cached height and two children (src/avl.py lines 6-27). -/
inductive Tree where
  | nil : Tree
  | node (value : Int) (count : Nat) (height : Int) (left right : Tree) : Tree
deriving DecidableEq, Repr

namespace Tree

/-- Cached height of a tree; the NullNode sentinel has height -1
(src/avl.py line 7), a Node carries its height attribute. -/
def ht : Tree → Int
  | .nil => -1
  | .node _ _ h _ _ => h

/-- Left child (nil for the sentinel). -/
def lchild : Tree → Tree
  | .nil => .nil
  | .node _ _ _ l _ => l

/-- Right child (nil for the sentinel). -/
def rchild : Tree → Tree
  | .nil => .nil
  | .node _ _ _ _ r => r

/-- The balance property of a Node: right height minus left height
(src/avl.py lines 74-76).  The sentinel has no balance attribute in the
source; it is never asked for one, so we return 0 there. -/
def balance : Tree → Int
  | .nil => 0
  | .node _ _ _ l r => ht r - ht l

/-- Node.update_height (src/avl.py lines 71-72): recompute the cached
height of the root node from the cached heights of its children. -/
def update_height : Tree → Tree
  | .nil => .nil
  | .node v c _ l r => .node v c (max (ht l) (ht r) + 1) l r

/-- Number of nodes, used as the termination measure for deletion. -/
def sz : Tree → Nat
  | .nil => 0
  | .node _ _ _ l r => sz l + sz r + 1

/-- Replace the left child of the root. -/
def setLeft : Tree → Tree → Tree
  | .nil, _ => .nil
  | .node v c h _ r, x => .node v c h x r

/-- Replace the right child of the root. -/
def setRight : Tree → Tree → Tree
  | .nil, _ => .nil
  | .node v c h l _, x => .node v c h l x

/-- Value of the last node of Node.iter_left (src/avl.py lines 61-64):
follow left links to the end.  Only called on non-nil trees. -/
def leftmostVal : Tree → Int
  | .nil => 0
  | .node v _ _ l _ => if l = .nil then v else leftmostVal l

/-- Value of the last node of Node.iter_right (src/avl.py lines 66-69):
follow right links to the end.  Only called on non-nil trees. -/
def rightmostVal : Tree → Int
  | .nil => 0
  | .node v _ _ _ r => if r = .nil then v else rightmostVal r

/-- Overwrite the value of the left-most node (the write half of the
value swap at src/avl.py line 221); counts and heights are untouched,
exactly as in the source. -/
def putLeftmost : Tree → Int → Tree
  | .nil, _ => .nil
  | .node v c h l r, x => if l = .nil then .node x c h l r
                          else .node v c h (putLeftmost l x) r

/-- Overwrite the value of the right-most node; counts and heights are
untouched, exactly as in the source. -/
def putRightmost : Tree → Int → Tree
  | .nil, _ => .nil
  | .node v c h l r, x => if r = .nil then .node x c h l r
                          else .node v c h l (putRightmost r x)

end Tree

open Tree

/-- AVL._rotate (src/avl.py lines 232-256) as a function on the rotated
subtree, returning the new subtree together with the final cached height
of the demoted node x (needed because _insert returns node.height after
the rotation).  toLeft chooses side = left.  The promoted child y takes
the place of x; x receives the o_side child of y.  Heights follow lines
246-250: if the two children of y have equal cached height, x gets the
old height of y and y gains one; otherwise x gets the old height of y
minus one. -/
def rotateDirH (toLeft : Bool) : Tree → Tree × Int
  | .nil => (.nil, -1)
  | .node xv xc xh l r =>
    match (if toLeft then l else r) with
    | .nil => (.node xv xc xh l r, xh)
    | .node yv yc yh yl yr =>
      let xh' := if ht yl = ht yr then yh else yh - 1
      let yh' := if ht yl = ht yr then yh + 1 else yh
      if toLeft then
        (.node yv yc yh' yl (.node xv xc xh' yr r), xh')
      else
        (.node yv yc yh' (.node xv xc xh' l yl) yr, xh')

/-- AVL._rotate, tree part only. -/
def rotateDir (toLeft : Bool) (t : Tree) : Tree := (rotateDirH toLeft t).1

/-- AVL.rotate (src/avl.py lines 264-282): the rotation check.  If the
balance magnitude is below 2 nothing happens; otherwise the four listed
sign cases dispatch to single or double rotations; a case not listed
(an offending child with balance 0) falls through the elif chain and
changes nothing.  Returns the new subtree and the final cached height of
the node the check was called on. -/
def rotateH (t : Tree) : Tree × Int :=
  if (balance t).natAbs < 2 then (t, ht t)
  else if balance t < -1 ∧ balance (lchild t) < 0 then rotateDirH true t
  else if 1 < balance t ∧ 0 < balance (rchild t) then rotateDirH false t
  else if balance t < -1 ∧ 0 < balance (lchild t) then
    rotateDirH true (setLeft t (rotateDir false (lchild t)))
  else if 1 < balance t ∧ balance (rchild t) < 0 then
    rotateDirH false (setRight t (rotateDir true (rchild t)))
  else (t, ht t)

/-- AVL.rotate, tree part only. -/
def rotate (t : Tree) : Tree := (rotateH t).1

/-- Height given to a new leaf (src/avl.py lines 171-178): 0, except in
the dead relink branch where it would be the height of the displaced child
plus one.  The guard of that branch is provably never true, but we keep
it to stay faithful to the source. -/
def newLeafH (displaced : Tree) : Int :=
  if displaced ≠ .nil then ht displaced + 1 else 0

/-- AVL._insert (src/avl.py lines 161-183).  Returns the new subtree and
the Python return value: node.height as it stands after the trailing
rotation (which may have demoted the node into the subtree).
An equal value increments the count (h stays 0); otherwise the mirrored
comparison picks a child (smaller values to the right, larger to the
left) and recursion or leaf creation happens there.  Afterwards
node.height = max(node.height, h + 1) and the rotation check runs. -/
def insertA : Tree → Int → Tree × Int
  | .nil, _ => (.nil, 0)
  | .node nv nc nh l r, v =>
    if v = nv then
      rotateH (.node nv (nc + 1) (max nh 1) l r)
    else if v < nv ∧ r ≠ .nil then
      let q := insertA r v
      rotateH (.node nv nc (max nh (q.2 + 1)) l q.1)
    else if nv < v ∧ l ≠ .nil then
      let q := insertA l v
      rotateH (.node nv nc (max nh (q.2 + 1)) q.1 r)
    else if nv < v then
      rotateH (.node nv nc (max nh 1) (.node v 1 (newLeafH l) .nil .nil) r)
    else
      rotateH (.node nv nc (max nh 1) l (.node v 1 (newLeafH r) .nil .nil))

/-- AVL.insert (src/avl.py lines 91-98): the public insert replaces the
root with the rebuilt subtree. -/
def insertT (t : Tree) (v : Int) : Tree := (insertA t v).1

/-- AVL.__init__ (src/avl.py lines 80-86): the first value becomes the
root node, the rest are inserted in order.  The Python constructor
raises IndexError on an empty list (a precondition violation per the
spec); we return the sentinel there. -/
def construct : List Int → Tree
  | [] => .nil
  | v :: vs => vs.foldl insertT (.node v 1 0 .nil .nil)

/-- AVL._do_delete (src/avl.py lines 185-201) restricted to the removed
subtree: the lone child (with its height recomputed) or the sentinel
takes the place of the node. -/
def doDelete : Tree → Tree
  | .nil => .nil
  | .node _ _ _ l r =>
    if l ≠ .nil ∧ r = .nil then update_height l
    else if r ≠ .nil ∧ l = .nil then update_height r
    else .nil

/-- AVL._delete (src/avl.py lines 203-230), indexed by fuel so that the
recursion is structural (the actual recursion of the source terminates
because every recursive call is on a strictly smaller subtree; the
wrapper deleteA supplies the node count as fuel, which theorem
deleteF_fuel shows to be enough).  none models the ValueError raised
when the search reaches the sentinel.  On a match: a count above 1
without all is just decremented (returning before any height update); a
node with at most one child is spliced out by _do_delete; otherwise the
value of the node is swapped with the extreme node of the taller child
(left-most of the right child if the cached height of the right child
is strictly greater, right-most of the left child otherwise) - counts
stay with their nodes, as in the source - and the recursion continues
with the flipped comparison, descending right when the searched value
is not below the new value of the node.  After the recursive call the
height of the node is recomputed and the rotation check runs; a
propagated error skips both, leaving every ancestor untouched. -/
def deleteF : Nat → Tree → Int → Bool → Option Tree
  | _, .nil, _, _ => none
  | 0, .node _ _ _ _ _, _, _ => none
  | f + 1, .node nv nc nh l r, v, all =>
    if v = nv then
      if ¬ all ∧ 1 < nc then
        some (.node nv (nc - 1) nh l r)
      else if l = .nil ∨ r = .nil then
        some (doDelete (.node nv nc nh l r))
      else
        if ht l < ht r then
          if ¬ v < leftmostVal r then
            (deleteF f (putLeftmost r v) v all).map
              (fun r2 => rotate (update_height (.node (leftmostVal r) nc nh l r2)))
          else
            (deleteF f l v all).map
              (fun l2 => rotate (update_height (.node (leftmostVal r) nc nh l2 (putLeftmost r v))))
        else
          if ¬ v < rightmostVal l then
            (deleteF f r v all).map
              (fun r2 => rotate (update_height (.node (rightmostVal l) nc nh (putRightmost l v) r2)))
          else
            (deleteF f (putRightmost l v) v all).map
              (fun l2 => rotate (update_height (.node (rightmostVal l) nc nh l2 r)))
    else
      if v < nv then
        (deleteF f r v all).map
          (fun r2 => rotate (update_height (.node nv nc nh l r2)))
      else
        (deleteF f l v all).map
          (fun l2 => rotate (update_height (.node nv nc nh l2 r)))

/-- AVL._delete with the fuel instantiated to the node count of the
argument, which deleteF_fuel below shows to be sufficient. -/
def deleteA (t : Tree) (v : Int) (all : Bool) : Option Tree := deleteF (sz t) t v all

/-- AVL.delete (src/avl.py lines 100-106): delegates to _delete at the
root; none models the ValueError escaping to the caller, in which case
the tree is untouched (nothing is mutated before the raise). -/
def deleteT (t : Tree) (v : Int) (all : Bool) : Option Tree := deleteA t v all

/-! ## Checkers for the spec invariants -/

namespace Tree

/-- All values in the tree satisfy p. -/
def allB (p : Int → Bool) : Tree → Bool
  | .nil => true
  | .node v _ _ l r => p v && allB p l && allB p r

/-- Invariant 3 of the spec, the mirrored ordering: every value in a
left subtree is strictly greater than the value at the node, every value in
a right subtree strictly smaller. -/
def orderedOk : Tree → Bool
  | .nil => true
  | .node v _ _ l r =>
    allB (fun x => v < x) l && allB (fun x => x < v) r && orderedOk l && orderedOk r

/-- Invariant 1 of the spec: every cached height equals
1 + max of the cached heights of the children (sentinel height -1). -/
def heightCacheOk : Tree → Bool
  | .nil => true
  | .node _ _ h l r => (h = max (ht l) (ht r) + 1 : Bool) && heightCacheOk l && heightCacheOk r

/-- Actual height of the tree shape, ignoring the cache. -/
def realHt : Tree → Int
  | .nil => -1
  | .node _ _ _ l r => max (realHt l) (realHt r) + 1

/-- Invariant 2 of the spec on true subtree heights: the AVL balance
condition at every node. -/
def balancedOk : Tree → Bool
  | .nil => true
  | .node _ _ _ l r => (realHt r - realHt l).natAbs ≤ 1 && balancedOk l && balancedOk r

/-- The balance condition computed from the cached heights, as the code
itself sees it. -/
def cachedBalancedOk : Tree → Bool
  | .nil => true
  | .node _ _ _ l r => (ht r - ht l).natAbs ≤ 1 && cachedBalancedOk l && cachedBalancedOk r

/-- Total multiplicity of a value in the tree (summing counts over every
node that holds it). -/
def countOf : Tree → Int → Nat
  | .nil, _ => 0
  | .node nv nc _ l r, v => (if v = nv then nc else 0) + countOf l v + countOf r v

/-- Number of nodes holding a given value (invariant 4 wants this to be
at most one per value). -/
def nodesWith : Tree → Int → Nat
  | .nil, _ => 0
  | .node nv _ _ l r, v => (if v = nv then 1 else 0) + nodesWith l v + nodesWith r v

/-- Membership test. -/
def containsB (t : Tree) (v : Int) : Bool := countOf t v ≠ 0

/-- Every node has count at least 1. -/
def countsPos : Tree → Bool
  | .nil => true
  | .node _ c _ l r => 1 ≤ c && countsPos l && countsPos r

/-- All structural invariants of spec section 3 that are expressible on
the embedded tree: height cache, balance, mirrored ordering and
positive counts (value-uniqueness follows from orderedOk). -/
def validOk (t : Tree) : Bool :=
  heightCacheOk t && balancedOk t && orderedOk t && countsPos t

end Tree

/-! ## The NullNode sentinel (src/avl.py lines 6-17) -/

/-- The NullNode instance state: the class defines no instance
attributes and its setattr discards every write, so the state carries
no information. -/
structure NullNode where
deriving DecidableEq, Repr

/-- NullNode.height, a class attribute fixed at -1 (src/avl.py line 7). -/
def NullNode.heightAttr (_ : NullNode) : Int := -1

/-- NullNode.value, a class attribute fixed at None (src/avl.py line 8). -/
def NullNode.valueAttr (_ : NullNode) : Option Int := none

/-- NullNode setattr override (src/avl.py lines 16-17): the body is
pass, so any assignment of any value to any attribute leaves the
sentinel unchanged. -/
def NullNode.setattr {α : Type} (s : NullNode) (_key : String) (_val : α) : NullNode := s


/-! ## Helper lemmas -/

theorem sz_putLeftmost (t : Tree) (x : Int) : sz (putLeftmost t x) = sz t := by
  induction t with
  | nil => rfl
  | node v c h l r ihl ihr =>
    simp only [putLeftmost]
    split <;> simp [sz, ihl]

theorem sz_putRightmost (t : Tree) (x : Int) : sz (putRightmost t x) = sz t := by
  induction t with
  | nil => rfl
  | node v c h l r ihl ihr =>
    simp only [putRightmost]
    split <;> simp [sz, ihr]

/-- The fuel of deleteF is irrelevant as long as it is at least the
node count: every recursive call decreases the node count (the value
swap preserves it), so the recursion never exhausts such a fuel. -/
theorem deleteF_fuel (f1 : Nat) :
    ∀ (f2 : Nat) (t : Tree) (v : Int) (all : Bool),
      sz t ≤ f1 → sz t ≤ f2 → deleteF f1 t v all = deleteF f2 t v all := by
  induction f1 with
  | zero =>
    intro f2 t v all h1 h2
    cases t with
    | nil => cases f2 <;> rfl
    | node nv nc nh l r => simp [sz] at h1
  | succ k ih =>
    intro f2 t v all h1 h2
    cases t with
    | nil => cases f2 <;> rfl
    | node nv nc nh l r =>
      cases f2 with
      | zero => simp [sz] at h2
      | succ m =>
        simp only [sz] at h1 h2
        simp only [deleteF]
        split_ifs <;>
          first
          | rfl
          | (congr 1
             exact ih _ _ _ _
               (by (try simp only [sz_putLeftmost, sz_putRightmost]); omega)
               (by (try simp only [sz_putLeftmost, sz_putRightmost]); omega))

/-- deleteA may be computed with any sufficient fuel. -/
theorem deleteA_eq_deleteF (f : Nat) (t : Tree) (v : Int) (all : Bool)
    (h : sz t ≤ f) : deleteA t v all = deleteF f t v all :=
  deleteF_fuel (sz t) f t v all le_rfl h

theorem allB_leftmostVal (p : Int → Bool) (t : Tree) (hne : t ≠ Tree.nil)
    (h : allB p t = true) : p (leftmostVal t) = true := by
  induction t with
  | nil => exact absurd rfl hne
  | node v c hh l r ihl ihr =>
    simp only [allB, Bool.and_eq_true] at h
    by_cases hl : l = Tree.nil
    · simp [leftmostVal, hl, h.1.1]
    · simp only [leftmostVal, if_neg hl]
      exact ihl hl h.1.2

theorem allB_rightmostVal (p : Int → Bool) (t : Tree) (hne : t ≠ Tree.nil)
    (h : allB p t = true) : p (rightmostVal t) = true := by
  induction t with
  | nil => exact absurd rfl hne
  | node v c hh l r ihl ihr =>
    simp only [allB, Bool.and_eq_true] at h
    by_cases hr : r = Tree.nil
    · simp [rightmostVal, hr, h.1.1]
    · simp only [rightmostVal, if_neg hr]
      exact ihr hr h.2

/-- Inserting a value already held by a childless node only increments
the count and pushes the cached height to at least 1. -/
theorem insertT_dup_leaf (v : Int) (c : Nat) (h : Int) :
    insertT (.node v c h .nil .nil) v = .node v (c + 1) (max h 1) .nil .nil := by
  simp [insertT, insertA, rotateH, balance, ht]

theorem foldl_insert_dup (v : Int) (j : Nat) :
    ∀ c : Nat, List.foldl insertT (Tree.node v c 1 .nil .nil) (List.replicate j v)
      = .node v (c + j) 1 .nil .nil := by
  induction j with
  | zero => intro c; simp
  | succ n ih =>
    intro c
    rw [List.replicate_succ, List.foldl_cons, insertT_dup_leaf, max_self, ih (c + 1)]
    have e : c + 1 + n = c + (n + 1) := by omega
    rw [e]

/-- Building a tree from k copies of one value yields a single node with
count k; its cached height is 0 for k = 1 and 1 (inflated) otherwise. -/
theorem construct_replicate (v : Int) (k : Nat) (hk : 1 ≤ k) :
    construct (List.replicate k v)
      = .node v k (if k = 1 then 0 else 1) .nil .nil := by
  match k, hk with
  | 1, _ => simp [construct]
  | (n + 2), _ =>
    rw [List.replicate_succ, List.replicate_succ]
    simp only [construct, List.foldl_cons]
    rw [insertT_dup_leaf]
    have e0 : max (0 : Int) 1 = 1 := by norm_num
    rw [e0, foldl_insert_dup v n 2]
    have e1 : 2 + n = n + 2 := by omega
    rw [e1, if_neg (by omega)]

/-- Structural deletion of a childless node splices in the sentinel. -/
theorem deleteA_leaf_all (v : Int) (c : Nat) (h : Int) :
    deleteA (.node v c h .nil .nil) v true = some .nil := by
  simp [deleteA, deleteF, doDelete, sz]

/-! ## The claims -/

/-- The demonstration insertion order of src/avl.py line 285. -/
def demoList : List Int := [41, 20, 65, 29, 50, 11, 26, 23, 55]

/-- The tree built by AVL(lst) in the demo (src/avl.py line 288). -/
def demoTree : Tree := construct demoList

/-- First demo deletion (src/avl.py line 290). -/
def demoD1 : Option Tree := deleteT demoTree 41 false

/-- Second demo deletion (src/avl.py line 291). -/
def demoD2 : Option Tree := demoD1.bind (fun t => deleteT t 55 false)

/-- Third demo deletion (src/avl.py line 292). -/
def demoD3 : Option Tree := demoD2.bind (fun t => deleteT t 20 false)

/-- Fourth demo deletion (src/avl.py line 293). -/
def demoD4 : Option Tree := demoD3.bind (fun t => deleteT t 29 false)

/-- The invariant bundle holds of the tree inside the option. -/
def optValid (o : Option Tree) : Bool := o.elim false validOk

/-- C10: every attribute assignment on the NullNode sentinel is
discarded: setattr returns the state unchanged for any key and any
value, the height attribute is the constant -1 and the value attribute
the constant None; correspondingly the embedded sentinel always has
height -1 and is unaffected by a height update, so re-parenting or
height-updating an absent child during a rotation or a deletion splice
has no effect on it. -/
theorem nullnode_writes_discarded :
    (∀ (s : NullNode) (key : String) (α : Type) (x : α), NullNode.setattr s key x = s)
    ∧ (∀ s : NullNode, NullNode.heightAttr s = -1)
    ∧ (∀ s : NullNode, NullNode.valueAttr s = none)
    ∧ ht Tree.nil = -1
    ∧ update_height Tree.nil = Tree.nil :=
  ⟨fun _ _ _ _ => rfl, fun _ => rfl, fun _ => rfl, rfl, rfl⟩

/-- C1: FALSIFIED.  Inserting a value already present at a childless
node sets the cached height of that node to max(height, 1) = 1, although
both children are absent, so the height-cache invariant fails right
after the public insert; AVL([5]); insert(5) is the smallest instance.
The invariant also fails on a duplicate-free insertion order, for
example AVL([1, 2, 3, 5, 6, 4]), where the double-rotation height
bookkeeping goes stale. -/
theorem height_cache_invariant_violated :
    heightCacheOk (insertT (construct [5]) 5) = false
    ∧ insertT (construct [5]) 5 = .node 5 2 1 .nil .nil
    ∧ heightCacheOk (construct [1, 2, 3, 5, 6, 4]) = false := by decide

/-- C2: FALSIFIED.  AVL([1, 2, 3, 4, 5]) satisfies every structural
invariant, but delete(1) leaves the root with balance -2 (true and
cached heights agree on it): the rotation dispatch has no case for an
offending child with balance 0, so no rebalancing happens. -/
theorem balance_invariant_violated :
    validOk (construct [1, 2, 3, 4, 5]) = true
    ∧ (deleteT (construct [1, 2, 3, 4, 5]) 1 false).map balancedOk = some false
    ∧ (deleteT (construct [1, 2, 3, 4, 5]) 1 false).map cachedBalancedOk
        = some false := by decide

/-- C5: FALSIFIED.  AVL([3, 3, 1]) and the subsequent insert(2) both
produce fully valid trees, but delete(2) then violates the mirrored
ordering: the two-child removal swaps values without swapping counts,
the recursion finds the swapped node holding value 2 with count 2 and
merely decrements it, leaving 2 in the left subtree of the node now
holding 3. -/
theorem ordering_invariant_violated :
    validOk (construct [3, 3, 1]) = true
    ∧ validOk (insertT (construct [3, 3, 1]) 2) = true
    ∧ (deleteT (insertT (construct [3, 3, 1]) 2) 2 false).map orderedOk
        = some false
    ∧ deleteT (insertT (construct [3, 3, 1]) 2) 2 false
        = some (.node 3 1 1 (.node 2 1 0 .nil .nil) (.node 1 1 0 .nil .nil)) := by
  decide

/-- C8: FALSIFIED.  AVL([3, 3, 1]) is a valid tree without the value 2;
inserting 2 and then deleting it once yields the multiset
(3, 1), (2, 1), (1, 1) instead of the original (3, 2), (1, 1): the
value swap of the two-child removal leaves the counts behind, so the
deletion decrements the count of the old node of 3 instead of removing
the node now holding 2. -/
theorem round_trip_violated :
    validOk (construct [3, 3, 1]) = true
    ∧ countOf (construct [3, 3, 1]) 2 = 0
    ∧ countOf (construct [3, 3, 1]) 3 = 2
    ∧ countOf (construct [3, 3, 1]) 1 = 1
    ∧ (deleteT (insertT (construct [3, 3, 1]) 2) 2 false).map
        (fun u => (countOf u 3, countOf u 2, countOf u 1)) = some (1, 1, 1) := by
  decide


/-- C9: the literal demo scenario.  Inserting
41, 20, 65, 29, 50, 11, 26, 23, 55 in order keeps every cached balance
factor within magnitude 1 after each insertion (indeed the full
invariant bundle holds after each); the resulting tree holds each of
the nine values exactly once and is mirror-ordered; deleting
41, 55, 20, 29 in that order succeeds, keeps the invariant bundle after
each deletion, and leaves exactly the value set 65, 50, 11, 26, 23,
each with multiplicity one, in a five-node tree. -/
theorem demo_scenario_ok :
    ((List.range 9).all fun i => cachedBalancedOk (construct (demoList.take (i + 1)))) = true
    ∧ ((List.range 9).all fun i => validOk (construct (demoList.take (i + 1)))) = true
    ∧ (demoList.all fun v => countOf demoTree v == 1) = true
    ∧ orderedOk demoTree = true
    ∧ optValid demoD1 = true
    ∧ optValid demoD2 = true
    ∧ optValid demoD3 = true
    ∧ optValid demoD4 = true
    ∧ demoD4.elim false (fun t =>
        ([65, 50, 11, 26, 23].all fun v => countOf t v == 1)
        && ([41, 55, 20, 29].all fun v => countOf t v == 0)
        && (sz t == 5)) = true := by decide


/-- The subtree handed to the rotation check while
AVL([1, 2, 3, 4, 5]).delete(1) unwinds: balance -2 with a left child of
balance 0.  It equals the unbalanced tree that delete returns, because
the check declines to rotate it. -/
def rotateHoleCex : Tree :=
  .node 2 1 2 (.node 4 1 1 (.node 5 1 0 .nil .nil) (.node 3 1 0 .nil .nil)) .nil

/-- C3: FALSIFIED as stated.  On a node of balance magnitude at least 2
whose offending child has balance 0, none of the four sign cases of the
dispatch applies and the check changes nothing, so it does not perform
exactly one of the four classic cases; the node below arises in a real
deletion. -/
theorem rotate_four_cases_violated :
    2 ≤ (balance rotateHoleCex).natAbs
    ∧ rotate rotateHoleCex = rotateHoleCex
    ∧ ¬ ((balance rotateHoleCex < -1 ∧ balance (lchild rotateHoleCex) < 0)
        ∨ (1 < balance rotateHoleCex ∧ 0 < balance (rchild rotateHoleCex))
        ∨ (balance rotateHoleCex < -1 ∧ 0 < balance (lchild rotateHoleCex))
        ∨ (1 < balance rotateHoleCex ∧ balance (rchild rotateHoleCex) < 0))
    ∧ deleteT (construct [1, 2, 3, 4, 5]) 1 false = some rotateHoleCex := by decide

/-- C3 amended: if the balance magnitude is below 2, or if it is at
least 2 but the offending child has balance 0, the rotation check
changes nothing; otherwise it performs exactly one of the four classic
cases, chosen by the sign of the balance of the node and the sign of
the balance of the offending child - a single rotation when the signs
agree and a double rotation when they disagree. -/
theorem rotate_dispatch (t : Tree) :
    rotate t =
      if -1 ≤ balance t ∧ balance t ≤ 1 then t
      else if balance t ≤ -2 ∧ balance (lchild t) < 0 then rotateDir true t
      else if balance t ≤ -2 ∧ 0 < balance (lchild t) then
        rotateDir true (setLeft t (rotateDir false (lchild t)))
      else if 2 ≤ balance t ∧ 0 < balance (rchild t) then rotateDir false t
      else if 2 ≤ balance t ∧ balance (rchild t) < 0 then
        rotateDir false (setRight t (rotateDir true (rchild t)))
      else t := by
  by_cases h0 : (balance t).natAbs < 2
  · have e : rotate t = t := by
      unfold rotate rotateH; rw [if_pos h0]
    rw [e, if_pos (by omega)]
  · by_cases h1 : balance t < -1 ∧ balance (lchild t) < 0
    · have e : rotate t = rotateDir true t := by
        unfold rotate rotateH; rw [if_neg h0, if_pos h1]; rfl
      rw [e, if_neg (by omega), if_pos (by omega)]
    · by_cases h2 : 1 < balance t ∧ 0 < balance (rchild t)
      · have e : rotate t = rotateDir false t := by
          unfold rotate rotateH; rw [if_neg h0, if_neg h1, if_pos h2]; rfl
        rw [e, if_neg (by omega), if_neg (by omega), if_neg (by omega),
          if_pos (by omega)]
      · by_cases h3 : balance t < -1 ∧ 0 < balance (lchild t)
        · have e : rotate t = rotateDir true (setLeft t (rotateDir false (lchild t))) := by
            unfold rotate rotateH; rw [if_neg h0, if_neg h1, if_neg h2, if_pos h3]; rfl
          rw [e, if_neg (by omega), if_neg (by omega), if_pos (by omega)]
        · by_cases h4 : 1 < balance t ∧ balance (rchild t) < 0
          · have e : rotate t = rotateDir false (setRight t (rotateDir true (rchild t))) := by
              unfold rotate rotateH
              rw [if_neg h0, if_neg h1, if_neg h2, if_neg h3, if_pos h4]
              rfl
            rw [e, if_neg (by omega), if_neg (by omega), if_neg (by omega),
              if_neg (by omega), if_pos (by omega)]
          · have e : rotate t = t := by
              unfold rotate rotateH
              rw [if_neg h0, if_neg h1, if_neg h2, if_neg h3, if_neg h4]
            rw [e, if_neg (by omega), if_neg (by omega), if_neg (by omega),
              if_neg (by omega), if_neg (by omega)]

/-- C4: FALSIFIED as stated.  In AVL([2, 3, 1]) the two children of the
root have equal cached height; the claim then demands the replacement
value 1, the left-most node of the right subtree, but delete(2) takes
the replacement 3, the right-most node of the left subtree - the source
descends right only when the right subtree is strictly taller. -/
theorem delete_pick_on_tie_violated :
    construct [2, 3, 1] = .node 2 1 1 (.node 3 1 0 .nil .nil) (.node 1 1 0 .nil .nil)
    ∧ ht (lchild (construct [2, 3, 1])) = ht (rchild (construct [2, 3, 1]))
    ∧ leftmostVal (rchild (construct [2, 3, 1])) = 1
    ∧ rightmostVal (lchild (construct [2, 3, 1])) = 3
    ∧ deleteT (construct [2, 3, 1]) 2 false
        = some (.node 3 1 1 .nil (.node 1 1 0 .nil .nil)) := by decide

/-- C4 amended: when delete structurally removes a node with two
children in an ordered tree, the replacement is the left-most node of
the right subtree exactly when the right subtree is strictly taller
(its cached height exceeds that of the left subtree), and the
right-most node of the left subtree otherwise, equal heights included;
the two values are swapped in place (counts stay put) and the deletion
recursion continues into the subtree the replacement came from,
searching for the moved value. -/
theorem delete_two_child_pick (v : Int) (nc : Nat) (nh : Int) (l r : Tree) (all : Bool)
    (hl : l ≠ Tree.nil) (hr : r ≠ Tree.nil)
    (hc : all = true ∨ nc ≤ 1)
    (hord : orderedOk (.node v nc nh l r) = true) :
    deleteA (.node v nc nh l r) v all =
      if ht l < ht r then
        (deleteA (putLeftmost r v) v all).map
          (fun r2 => rotate (update_height (.node (leftmostVal r) nc nh l r2)))
      else
        (deleteA (putRightmost l v) v all).map
          (fun l2 => rotate (update_height (.node (rightmostVal l) nc nh l2 r))) := by
  simp only [orderedOk, Bool.and_eq_true] at hord
  have hmr : leftmostVal r < v := by
    have := allB_leftmostVal _ r hr hord.1.1.2
    simpa using this
  have hml : v < rightmostVal l := by
    have := allB_rightmostVal _ l hl hord.1.1.1
    simpa using this
  have hcc : ¬ (¬ all ∧ 1 < nc) := by
    rcases hc with h | h
    · simp [h]
    · rintro ⟨-, h2⟩; omega
  have hne : ¬ (l = Tree.nil ∨ r = Tree.nil) := by
    rintro (h | h)
    · exact hl h
    · exact hr h
  simp only [deleteA, sz, deleteF]
  simp only [if_true]
  rw [if_neg hcc, if_neg hne]
  by_cases hh : ht l < ht r
  · simp only [if_pos hh]
    rw [if_pos (show ¬ v < leftmostVal r by omega)]
    rw [deleteF_fuel (sz l + sz r) (sz (putLeftmost r v)) (putLeftmost r v) v all
      (by simp only [sz_putLeftmost]; omega) (le_refl _)]
  · simp only [if_neg hh]
    rw [if_neg (show ¬ ¬ v < rightmostVal l from not_not_intro hml)]
    rw [deleteF_fuel (sz l + sz r) (sz (putRightmost l v)) (putRightmost l v) v all
      (by simp only [sz_putRightmost]; omega) (le_refl _)]

theorem delete_two_child_pick_witness :
    ((Tree.node 3 1 0 .nil .nil : Tree) ≠ .nil)
    ∧ ((Tree.node 1 1 0 .nil .nil : Tree) ≠ .nil)
    ∧ (false = true ∨ (1 : Nat) ≤ 1)
    ∧ orderedOk (.node 2 1 1 (.node 3 1 0 .nil .nil) (.node 1 1 0 .nil .nil)) = true
    ∧ deleteA (.node 2 1 1 (.node 3 1 0 .nil .nil) (.node 1 1 0 .nil .nil)) 2 false =
        (if ht (Tree.node 3 1 0 .nil .nil : Tree) < ht (Tree.node 1 1 0 .nil .nil : Tree) then
          (deleteA (putLeftmost (.node 1 1 0 .nil .nil) 2) 2 false).map
            (fun r2 => rotate (update_height
              (.node (leftmostVal (.node 1 1 0 .nil .nil)) 1 1 (.node 3 1 0 .nil .nil) r2)))
        else
          (deleteA (putRightmost (.node 3 1 0 .nil .nil) 2) 2 false).map
            (fun l2 => rotate (update_height
              (.node (rightmostVal (.node 3 1 0 .nil .nil)) 1 1 l2 (.node 1 1 0 .nil .nil))))) :=
  ⟨by decide, by decide, by decide, by decide,
   delete_two_child_pick 2 1 1 _ _ false (by decide) (by decide) (by decide) (by decide)⟩

/-- deleteF never succeeds on a value held by no node: the search
compares, descends and finally reaches the sentinel, for any fuel. -/
theorem deleteF_absent (v : Int) (all : Bool) :
    ∀ (f : Nat) (t : Tree), nodesWith t v = 0 → deleteF f t v all = none := by
  intro f
  induction f with
  | zero =>
    intro t h
    cases t <;> rfl
  | succ k ih =>
    intro t h
    cases t with
    | nil => rfl
    | node nv nc nh l r =>
      by_cases hv : v = nv
      · exfalso
        subst hv
        have h1 : nodesWith (Tree.node v nc nh l r) v
            = 1 + nodesWith l v + nodesWith r v := by
          simp [nodesWith]
        omega
      · have h1 : nodesWith (Tree.node nv nc nh l r) v
            = nodesWith l v + nodesWith r v := by
          simp [nodesWith, hv]
        have hl : nodesWith l v = 0 := by omega
        have hr : nodesWith r v = 0 := by omega
        simp only [deleteF]
        rw [if_neg hv]
        by_cases hlt : v < nv
        · rw [if_pos hlt, ih r hr]; rfl
        · rw [if_neg hlt, ih l hl]; rfl

/-- C6: deleting a value held by no node raises the NotFound error for
every tree and either all flag: the recursion reaches the sentinel
without a match and the error escapes, and since the embedding
propagates the error without rebuilding anything - mirroring the
source, where nothing is mutated before the raise on the search path -
the tree is left exactly as it was. -/
theorem delete_absent_errors (t : Tree) (v : Int) (all : Bool)
    (h : nodesWith t v = 0) : deleteT t v all = none :=
  deleteF_absent v all (sz t) t h

theorem delete_absent_errors_witness :
    nodesWith (construct [2, 3, 1]) 7 = 0
    ∧ deleteT (construct [2, 3, 1]) 7 false = none :=
  ⟨by decide, delete_absent_errors (construct [2, 3, 1]) 7 false (by decide)⟩

/-- C7: building a tree by inserting the same value k times collapses
into a single childless node of count k (cached height 1 once k
exceeds 1); deleting that value once with all false merely decrements
the count to k - 1 and returns before any structural code runs, so the
tree is otherwise unchanged; deleting with all true removes the node
entirely, whatever the multiplicity. -/
theorem multiplicity_delete (v : Int) (k : Nat) (hk : 1 ≤ k) :
    (2 ≤ k →
      deleteT (construct (List.replicate k v)) v false
        = some (.node v (k - 1) 1 .nil .nil))
    ∧ deleteT (construct (List.replicate k v)) v true = some .nil := by
  constructor
  · intro h2
    have h1k : 1 < k := h2
    rw [deleteT, construct_replicate v k hk, if_neg (by omega)]
    simp [deleteA, deleteF, sz, h1k]
  · rw [deleteT, construct_replicate v k hk]
    exact deleteA_leaf_all v k _

theorem multiplicity_delete_witness :
    (1 : Nat) ≤ 3 ∧ (2 : Nat) ≤ 3
    ∧ deleteT (construct (List.replicate 3 (5 : Int))) 5 false
        = some (.node 5 2 1 .nil .nil)
    ∧ deleteT (construct (List.replicate 3 (5 : Int))) 5 true = some .nil :=
  ⟨by decide, by decide,
   (multiplicity_delete 5 3 (by decide)).1 (by decide),
   (multiplicity_delete 5 3 (by decide)).2⟩

end AvlPy
